import Mathlib

/-!
Shallow embedding of the Filecoin verified-registry invariant checker
(`src/actors/verifreg/src/testing.rs`) and the verifreg test harness
(`src/actors/verifreg/tests/harness/mod.rs`), together with theorems
settling the claims about them.

Modelling conventions:
* `u64` values (actor ids, allocation/claim ids, piece sizes, sector
  numbers) are `Nat`; where a Rust `u64` addition or a `to_i64()` cast
  can panic (debug overflow / failed conversion) the embedding returns
  `Option` and yields `none` on the panicking input.
* `ChainEpoch` (`i64`) and `DataCap` (a big integer) are `Int`.
* `Cid` is opaque data; it is modelled as a `Nat` tag.
* The content-addressed block store is out of scope: the HAMT maps are
  modelled directly as association lists, so loads always succeed and
  the `Err(e)` branches of `check_state_invariants` (which only fire on
  store failures) are not represented.
* A Rust `unwrap`/`expect`/`assert!` panic is modelled by an `Option`
  result that is `none` on the panicking input.
-/

namespace VerifReg

/-- Modelled from the spec: policy constant `MINIMUM_VERIFIED_ALLOCATION_SIZE`
from `fil_actors_runtime::runtime::policy_constants`, which is not under
`src/` (1 MiB). The claims are stated symbolically in this constant. -/
def MINIMUM_VERIFIED_ALLOCATION_SIZE : Nat := 1048576

/-- Modelled from the spec: policy constant `MINIMUM_VERIFIED_ALLOCATION_TERM`
from `fil_actors_runtime::runtime::policy_constants`, not under `src/`
(180 days of 2880 epochs). -/
def MINIMUM_VERIFIED_ALLOCATION_TERM : Int := 518400

/-- Modelled from the spec: policy constant `MAXIMUM_VERIFIED_ALLOCATION_TERM`
from `fil_actors_runtime::runtime::policy_constants`, not under `src/`
(5 years of 365*2880 epochs). -/
def MAXIMUM_VERIFIED_ALLOCATION_TERM : Int := 5256000

/-- Modelled from the spec: policy constant
`MAXIMUM_VERIFIED_ALLOCATION_EXPIRATION` from
`fil_actors_runtime::runtime::policy_constants`, not under `src/`
(60 days of 2880 epochs). -/
def MAXIMUM_VERIFIED_ALLOCATION_EXPIRATION : Int := 172800

/-- Modelled from the spec: `frc46_token::token::TOKEN_PRECISION`, not under
`src/`: the fixed precision factor scaling storage-unit counts to token
amounts (`TokenAmount::from_whole` multiplies by 10^18). -/
def TOKEN_PRECISION : Int := 1000000000000000000

/-- The address protocol discriminant `fvm_shared::address::Protocol`. -/
inductive Protocol : Type
  | ID : Protocol
  | Secp256k1 : Protocol
  | Actor : Protocol
  | BLS : Protocol
  | Delegated : Protocol
deriving DecidableEq

/-- The `fvm_shared::address::Address` type, reduced to its protocol and a numeric
payload (the payload bytes of non-ID protocols are irrelevant here). -/
structure Address : Type where
  protocol : Protocol
  payload : Nat
deriving DecidableEq

/-- The `fil_actor_verifreg::Allocation` struct (fields as in the Rust struct;
`data` is the piece CID modelled as an opaque tag, `size` is
`PaddedPieceSize.0`). -/
structure Allocation : Type where
  client : Nat
  provider : Nat
  data : Nat
  size : Nat
  term_min : Int
  term_max : Int
  expiration : Int
deriving DecidableEq

/-- The `fil_actor_verifreg::Claim` struct (fields as in the Rust struct). -/
structure Claim : Type where
  provider : Nat
  client : Nat
  data : Nat
  size : Nat
  term_min : Int
  term_max : Int
  term_start : Int
  sector : Nat
deriving DecidableEq

/-- Association-list lookup: the model of HAMT `get`. -/
def lookupKey {κ α : Type} [DecidableEq κ] : List (κ × α) → κ → Option α
  | [], _ => none
  | (k, w) :: rest, key => if k = key then some w else lookupKey rest key

/-- Association-list insert/overwrite: the model of HAMT `set`. -/
def insertKey {κ α : Type} [DecidableEq κ] : List (κ × α) → κ → α → List (κ × α)
  | [], key, v => [(key, v)]
  | (k, w) :: rest, key, v =>
    if k = key then (key, v) :: rest else (k, w) :: insertKey rest key v

/-- Association-list delete: the model of HAMT `delete`. -/
def removeKey {κ α : Type} [DecidableEq κ] (l : List (κ × α)) (key : κ) :
    List (κ × α) :=
  l.filter (fun p => p.1 ≠ key)

/-- The `fil_actor_verifreg::State` record, reduced to the content the checker and
harness read: the verifiers map, the two-level allocations and claims
maps (outer key = raw HAMT key bytes encoding the owner actor id), and
the global `next_allocation_id` counter. -/
structure State : Type where
  verifiers : List (Address × Int)
  allocations : List (List Nat × List (Nat × Allocation))
  claims : List (List Nat × List (Nat × Claim))
  next_allocation_id : Nat
deriving DecidableEq

/-- Modelled from the spec: `frc46_token::token::state::decode_actor_id`,
not under `src/` — decodes a HAMT key (unsigned-varint bytes) back to the
numeric owner actor id, failing on bytes that are not a valid varint. -/
def decode_actor_id : List Nat → Option Nat
  | [] => none
  | b :: rest =>
    if b < 128 then some b
    else (decode_actor_id rest).map (fun v => b % 128 + 128 * v)

/-- One little-endian base-128 digit step of actor-id key encoding; the
fuel (first argument) bounds the number of emitted bytes, 10 sufficing
for any `u64`. -/
def encodeVarintAux : Nat → Nat → List Nat
  | 0, _ => []
  | fuel + 1, n =>
    if n < 128 then [n] else (n % 128 + 128) :: encodeVarintAux fuel (n / 128)

/-- Modelled from the spec: the inverse of `decode_actor_id` — the HAMT
key bytes under which maps keyed by actor id store an owner (the
unsigned-varint encoding used by the actors' map layer, not under
`src/`). -/
def encode_actor_id (n : Nat) : List Nat := encodeVarintAux 10 n

/-- Two-level (owner id, entry id) map lookup: `MapMap::get`. -/
def mmGet {α : Type} (m : List (List Nat × List (Nat × α))) (owner : Nat)
    (id : Nat) : Option α :=
  match lookupKey m (encode_actor_id owner) with
  | none => none
  | some inner => lookupKey inner id

/-- Two-level map conditional insert: `MapMap::put_if_absent`. Returns
`true` and the updated map when the slot was empty, `false` and the
unchanged map when the slot was occupied. -/
def mmPutIfAbsent {α : Type} (m : List (List Nat × List (Nat × α)))
    (owner : Nat) (id : Nat) (v : α) :
    Bool × List (List Nat × List (Nat × α)) :=
  match lookupKey m (encode_actor_id owner) with
  | none => (true, insertKey m (encode_actor_id owner) [(id, v)])
  | some inner =>
    match lookupKey inner id with
    | some _ => (false, m)
    | none => (true, insertKey m (encode_actor_id owner) (insertKey inner id v))

/-- Two-level map insert/overwrite: `MapMap::put`. -/
def mmPut {α : Type} (m : List (List Nat × List (Nat × α))) (owner : Nat)
    (id : Nat) (v : α) : List (List Nat × List (Nat × α)) :=
  match lookupKey m (encode_actor_id owner) with
  | none => insertKey m (encode_actor_id owner) [(id, v)]
  | some inner => insertKey m (encode_actor_id owner) (insertKey inner id v)

/-- Two-level map delete: `MapMap::remove`. -/
def mmRemove {α : Type} (m : List (List Nat × List (Nat × α))) (owner : Nat)
    (id : Nat) : List (List Nat × List (Nat × α)) :=
  match lookupKey m (encode_actor_id owner) with
  | none => m
  | some inner => insertKey m (encode_actor_id owner) (removeKey inner id)

/-- The accumulator operation `MessageAccumulator::require`: records `msg` when `cond` fails,
otherwise leaves the accumulated messages unchanged. -/
def require (acc : List String) (cond : Prop) [Decidable cond]
    (msg : String) : List String :=
  if cond then acc else acc ++ [msg]

/-- Function `check_allocation_state` from `src/actors/verifreg/src/testing.rs`:
the seven `acc.require` checks on one allocation entry, in source
order, returning the messages recorded for this entry. -/
def check_allocation_state (id : Nat) (alloc : Allocation) (client : Nat)
    (next_alloc_id : Nat) (prior_epoch : Int) : List String :=
  let acc := require [] (id < next_alloc_id)
    ("allocation id " ++ toString id ++ " exceeds next " ++ toString next_alloc_id)
  let acc := require acc (alloc.client = client)
    ("allocation " ++ toString id ++ " client " ++ toString alloc.client ++
      " does not match key " ++ toString client)
  let acc := require acc (alloc.size ≥ MINIMUM_VERIFIED_ALLOCATION_SIZE)
    ("allocation " ++ toString id ++ " size " ++ toString alloc.size ++ " too small")
  let acc := require acc (alloc.term_min ≥ MINIMUM_VERIFIED_ALLOCATION_TERM)
    ("allocation " ++ toString id ++ " term min " ++ toString alloc.term_min ++ " too small")
  let acc := require acc (alloc.term_max ≤ MAXIMUM_VERIFIED_ALLOCATION_TERM)
    ("allocation " ++ toString id ++ " term max " ++ toString alloc.term_max ++ " too large ")
  let acc := require acc (alloc.term_min ≤ alloc.term_max)
    ("allocation " ++ toString id ++ " term min " ++ toString alloc.term_min ++
      " exceeds max " ++ toString alloc.term_max)
  require acc (alloc.expiration ≤ prior_epoch + MAXIMUM_VERIFIED_ALLOCATION_EXPIRATION)
    ("allocation " ++ toString id ++ " expiration " ++ toString alloc.expiration ++
      " too far from now " ++ toString prior_epoch)

/-- Function `check_claim_state` from `src/actors/verifreg/src/testing.rs`: the
six `acc.require` checks on one claim entry, in source order.  There is
deliberately no upper bound on `term_max` (it can be extended
arbitrarily by spending new datacap). -/
def check_claim_state (id : Nat) (claim : Claim) (provider : Nat)
    (next_alloc_id : Nat) (prior_epoch : Int) : List String :=
  let acc := require [] (id < next_alloc_id)
    ("claim id " ++ toString id ++ " exceeds next " ++ toString next_alloc_id)
  let acc := require acc (claim.provider = provider)
    ("claim " ++ toString id ++ " provider " ++ toString claim.provider ++
      " does not match key " ++ toString provider)
  let acc := require acc (claim.size ≥ MINIMUM_VERIFIED_ALLOCATION_SIZE)
    ("claim " ++ toString id ++ " size " ++ toString claim.size ++
      " below minimum " ++ toString MINIMUM_VERIFIED_ALLOCATION_SIZE)
  let acc := require acc (claim.term_min ≥ MINIMUM_VERIFIED_ALLOCATION_TERM)
    ("claim " ++ toString id ++ " term min " ++ toString claim.term_min ++
      " below minimum " ++ toString MINIMUM_VERIFIED_ALLOCATION_TERM)
  let acc := require acc (claim.term_min ≤ claim.term_max)
    ("claim " ++ toString id ++ " term min " ++ toString claim.term_min ++
      " exceeds max " ++ toString claim.term_max)
  require acc (claim.term_start ≤ prior_epoch)
    ("claim " ++ toString id ++ " term start " ++ toString claim.term_start ++
      " after now " ++ toString prior_epoch)

/-- The per-verifier checks inlined in `check_state_invariants`
(`verifiers.for_each` closure): key has ID protocol, cap not negative. -/
def check_verifier_state (verifier : Address) (cap : Int) : List String :=
  let acc := require [] (verifier.protocol = Protocol.ID)
    ("verifier " ++ toString verifier.payload ++ " should have ID protocol")
  require acc (¬ cap < 0)
    ("verifier " ++ toString verifier.payload ++ " cap " ++ toString cap ++ " is negative")

/-- The allocations outer loop of `check_state_invariants`: for each
outer entry, `decode_actor_id(client_key).unwrap()` (a panic — `none` —
when the key does not decode), then every inner allocation entry is
checked with `check_allocation_state`. -/
def check_allocations_outer (next_alloc_id : Nat) (prior_epoch : Int) :
    List (List Nat × List (Nat × Allocation)) → Option (List String)
  | [] => some []
  | (client_key, inner) :: rest =>
    match decode_actor_id client_key with
    | none => none
    | some client_id =>
      let msgs := inner.foldl
        (fun acc p =>
          acc ++ check_allocation_state p.1 p.2 client_id next_alloc_id prior_epoch) []
      match check_allocations_outer next_alloc_id prior_epoch rest with
      | none => none
      | some ms => some (msgs ++ ms)

/-- The claims outer loop of `check_state_invariants`: for each outer
entry, `decode_actor_id(provider_key).unwrap()` (a panic — `none` — when
the key does not decode), then every inner claim entry is checked with
`check_claim_state`. -/
def check_claims_outer (next_alloc_id : Nat) (prior_epoch : Int) :
    List (List Nat × List (Nat × Claim)) → Option (List String)
  | [] => some []
  | (provider_key, inner) :: rest =>
    match decode_actor_id provider_key with
    | none => none
    | some provider_id =>
      let msgs := inner.foldl
        (fun acc p =>
          acc ++ check_claim_state p.1 p.2 provider_id next_alloc_id prior_epoch) []
      match check_claims_outer next_alloc_id prior_epoch rest with
      | none => none
      | some ms => some (msgs ++ ms)

/-- Function `check_state_invariants` from `src/actors/verifreg/src/testing.rs`:
walks verifiers, then allocations, then claims, accumulating every
violation message in order; `none` models the `unwrap` panic on an
undecodable outer-map key (in which case the Rust function returns
nothing at all). -/
def check_state_invariants (st : State) (prior_epoch : Int) :
    Option (List String) :=
  let vmsgs := st.verifiers.foldl
    (fun acc p => acc ++ check_verifier_state p.1 p.2) []
  match check_allocations_outer st.next_allocation_id prior_epoch st.allocations with
  | none => none
  | some amsgs =>
    match check_claims_outer st.next_allocation_id prior_epoch st.claims with
    | none => none
    | some cmsgs => some (vmsgs ++ amsgs ++ cmsgs)

/-- Function `Harness::create_alloc` from
`src/actors/verifreg/tests/harness/mod.rs`: takes the next global id,
inserts the allocation at `(alloc.client, id)` with `put_if_absent`
(the surrounding `assert!` panics — `none` — if the slot was occupied),
then increments `next_allocation_id` by one (`u64` debug overflow
panics — `none` — at `2^64`). Returns the assigned id and new state. -/
def create_alloc (st : State) (alloc : Allocation) : Option (Nat × State) :=
  match mmPutIfAbsent st.allocations alloc.client st.next_allocation_id alloc with
  | (false, _) => none
  | (true, allocs) =>
    if st.next_allocation_id + 1 < 2 ^ 64 then
      some (st.next_allocation_id,
        { st with allocations := allocs,
                  next_allocation_id := st.next_allocation_id + 1 })
    else none

/-- Function `Harness::create_claim` from
`src/actors/verifreg/tests/harness/mod.rs`: same global counter as
`create_alloc`, inserting at `(claim.provider, id)` in the claims map. -/
def create_claim (st : State) (claim : Claim) : Option (Nat × State) :=
  match mmPutIfAbsent st.claims claim.provider st.next_allocation_id claim with
  | (false, _) => none
  | (true, claims) =>
    if st.next_allocation_id + 1 < 2 ^ 64 then
      some (st.next_allocation_id,
        { st with claims := claims,
                  next_allocation_id := st.next_allocation_id + 1 })
    else none

/-- A creation step of the harness: either `create_alloc` or
`create_claim`. -/
inductive CreationOp : Type
  | mkAlloc : Allocation → CreationOp
  | mkClaim : Claim → CreationOp

/-- Dispatches one harness creation step. -/
def creation_step (st : State) : CreationOp → Option (Nat × State)
  | CreationOp.mkAlloc a => create_alloc st a
  | CreationOp.mkClaim c => create_claim st c

/-- Runs a sequence of harness creations, collecting the assigned ids in
order; `none` as soon as any single creation panics. -/
def run_creations (st : State) : List CreationOp → Option (List Nat × State)
  | [] => some ([], st)
  | op :: rest =>
    match creation_step st op with
    | none => none
    | some (id, st1) =>
      match run_creations st1 rest with
      | none => none
      | some (ids, st2) => some (id :: ids, st2)

/-- Function `claim_from_alloc` from `src/actors/verifreg/tests/harness/mod.rs`:
the claim expected after claiming an allocation at `term_start` into
`sector`. -/
def claim_from_alloc (alloc : Allocation) (term_start : Int) (sector : Nat) :
    Claim :=
  { provider := alloc.provider
    client := alloc.client
    data := alloc.data
    size := alloc.size
    term_min := alloc.term_min
    term_max := alloc.term_max
    term_start := term_start
    sector := sector }

/-- Modelled from the spec: the `ClaimAllocations` state transition for a
single allocation (the production transition code is not under `src/`;
only its test harness is). Per spec section 4.2 it fails if the
allocation is absent or the client mismatches, or if
`sector_expiry < proof_epoch + term_min` or
`sector_expiry - proof_epoch > term_max`; on success it deletes the
Allocation at `(client, id)` and inserts a Claim under `(provider, id)`
copying client/provider/data/size/term_min/term_max and stamping
`term_start = proof_epoch`, `sector` = the proven sector. -/
def claim_allocation (st : State) (client : Nat) (id : Nat)
    (sector_expiry : Int) (epoch : Int) (sector : Nat) : Option State :=
  match mmGet st.allocations client id with
  | none => none
  | some alloc =>
    if alloc.client = client ∧ epoch + alloc.term_min ≤ sector_expiry ∧
        sector_expiry - epoch ≤ alloc.term_max then
      some { st with
        allocations := mmRemove st.allocations client id,
        claims := mmPut st.claims alloc.provider id
          (claim_from_alloc alloc epoch sector) }
    else none

/-- One item the harness registers on the mock runtime: an expected
allocation event, an expected claim event, or an expected outbound
datacap-token `Transfer` send (amounts in token units, already scaled
by `TOKEN_PRECISION`). -/
inductive HarnessMsg : Type
  | allocEvent (typ : String) (id : Nat) (client : Nat) (provider : Nat)
      (data : Nat) (size : Nat) (term_min : Int) (term_max : Int)
      (expiration : Int) : HarnessMsg
  | claimEvent (typ : String) (id : Nat) (client : Nat) (provider : Nat)
      (data : Nat) (size : Nat) (sector : Nat) (term_min : Int)
      (term_max : Int) (term_start : Int) : HarnessMsg
  | transferSend (toActor : Nat) (amount : Int) : HarnessMsg
deriving DecidableEq

/-- Function `expect_allocation_emitted` from the harness, applied the way
`remove_expired_allocations` calls it (all fields drawn from the
removed allocation). -/
def expect_allocation_emitted (typ : String) (id : Nat) (a : Allocation) :
    HarnessMsg :=
  HarnessMsg.allocEvent typ id a.client a.provider a.data a.size
    a.term_min a.term_max a.expiration

/-- Function `expect_claim_emitted` from the harness, applied the way
`remove_expired_claims` calls it (all fields drawn from the removed
claim). -/
def expect_claim_emitted (typ : String) (id : Nat) (c : Claim) : HarnessMsg :=
  HarnessMsg.claimEvent typ id c.client c.provider c.data c.size c.sector
    c.term_min c.term_max c.term_start

/-- Whether a harness message is an outbound token send. -/
def isTransferSend : HarnessMsg → Bool
  | HarnessMsg.transferSend _ _ => true
  | _ => false

/-- Whether a harness message is an event of the given type string. -/
def isEventOfType (typ : String) : HarnessMsg → Bool
  | HarnessMsg.allocEvent t _ _ _ _ _ _ _ _ => t = typ
  | HarnessMsg.claimEvent t _ _ _ _ _ _ _ _ _ => t = typ
  | HarnessMsg.transferSend _ _ => false

/-- Function `Harness::remove_expired_allocations` from
`src/actors/verifreg/tests/harness/mod.rs`, reduced to the expectations
it registers on the mock runtime: for each entry of `expect_removed`
(in order) it accumulates `alloc.size` into `expected_datacap` and
expects one "allocation-removed" event, then it expects exactly one
datacap `Transfer` send to the client of
`TokenAmount::from_whole(expected_datacap)` — the size total scaled by
`TOKEN_PRECISION`. The `u64` accumulation and the `to_i64().unwrap()`
panic (in debug) when the size total reaches `2^63`, modelled by
`none`. -/
def remove_expired_allocations (client : Nat)
    (expect_removed : List (Nat × Allocation)) : Option (List HarnessMsg) :=
  let expected_datacap := (expect_removed.map (fun p => p.2.size)).sum
  if expected_datacap < 2 ^ 63 then
    some
      ((expect_removed.map
          (fun p => expect_allocation_emitted "allocation-removed" p.1 p.2)) ++
        [HarnessMsg.transferSend client
          ((expected_datacap : Int) * TOKEN_PRECISION)])
  else none

/-- Function `Harness::remove_expired_claims` from
`src/actors/verifreg/tests/harness/mod.rs`, reduced to the expectations
it registers on the mock runtime: one "claim-removed" event per removed
entry and — unlike `remove_expired_allocations` — no outbound token
send of any kind (the mock runtime rejects any send that was not
expected). -/
def remove_expired_claims (provider : Nat)
    (expect_removed : List (Nat × Claim)) : List HarnessMsg :=
  expect_removed.map (fun p => expect_claim_emitted "claim-removed" p.1 p.2)

/-- Modelled from the spec: the `RemoveExpiredClaims` state effect for a
single named claim (the production transition code is not under
`src/`). Per spec section 4.3 it requires
`currentEpoch > claim.term_start + claim.term_max`, deletes the entry
and emits "claim-removed"; an id not found or not expired is skipped
with no effect; there is no token movement. -/
def remove_expired_claim_one (st : State) (provider : Nat) (id : Nat)
    (epoch : Int) : State × List HarnessMsg :=
  match mmGet st.claims provider id with
  | none => (st, [])
  | some c =>
    if c.term_start + c.term_max < epoch then
      ({ st with claims := mmRemove st.claims provider id },
        [expect_claim_emitted "claim-removed" id c])
    else (st, [])

/-- Spec-side count (following the spec's words in section 4.4) of how
many of the seven allocation bounds an entry violates: id below the
global counter, embedded client matching the decoded owner key, and the
five section-3 numeric/temporal bounds. -/
def alloc_violation_count (id : Nat) (a : Allocation) (client : Nat)
    (next_alloc_id : Nat) (E : Int) : Nat :=
  (if id < next_alloc_id then 0 else 1) +
  (if a.client = client then 0 else 1) +
  (if a.size ≥ MINIMUM_VERIFIED_ALLOCATION_SIZE then 0 else 1) +
  (if a.term_min ≥ MINIMUM_VERIFIED_ALLOCATION_TERM then 0 else 1) +
  (if a.term_max ≤ MAXIMUM_VERIFIED_ALLOCATION_TERM then 0 else 1) +
  (if a.term_min ≤ a.term_max then 0 else 1) +
  (if a.expiration ≤ E + MAXIMUM_VERIFIED_ALLOCATION_EXPIRATION then 0 else 1)

/-- Spec-side count of how many of the six claim bounds an entry
violates. -/
def claim_violation_count (id : Nat) (c : Claim) (provider : Nat)
    (next_alloc_id : Nat) (E : Int) : Nat :=
  (if id < next_alloc_id then 0 else 1) +
  (if c.provider = provider then 0 else 1) +
  (if c.size ≥ MINIMUM_VERIFIED_ALLOCATION_SIZE then 0 else 1) +
  (if c.term_min ≥ MINIMUM_VERIFIED_ALLOCATION_TERM then 0 else 1) +
  (if c.term_min ≤ c.term_max then 0 else 1) +
  (if c.term_start ≤ E then 0 else 1)

/-- Spec-side count of how many of the two verifier bounds an entry
violates. -/
def verifier_violation_count (v : Address) (cap : Int) : Nat :=
  (if v.protocol = Protocol.ID then 0 else 1) + (if ¬ cap < 0 then 0 else 1)

/-- Total verifier violations over a state, per the spec's walk. -/
def verifier_violation_total (st : State) : Nat :=
  (st.verifiers.map (fun p => verifier_violation_count p.1 p.2)).sum

/-- Total allocation violations over a state, per the spec's walk (the
owner id of an outer entry is the decoded key). -/
def alloc_violation_total (st : State) (E : Int) : Nat :=
  (st.allocations.map (fun q =>
    (q.2.map (fun p => alloc_violation_count p.1 p.2
      ((decode_actor_id q.1).getD 0) st.next_allocation_id E)).sum)).sum

/-- Total claim violations over a state, per the spec's walk. -/
def claim_violation_total (st : State) (E : Int) : Nat :=
  (st.claims.map (fun q =>
    (q.2.map (fun p => claim_violation_count p.1 p.2
      ((decode_actor_id q.1).getD 0) st.next_allocation_id E)).sum)).sum

/-- An allocation satisfying every checker bound relative to audit epoch
0 and any counter above 3. -/
def okAllocation : Allocation :=
  { client := 5
    provider := 9
    data := 1
    size := MINIMUM_VERIFIED_ALLOCATION_SIZE
    term_min := MINIMUM_VERIFIED_ALLOCATION_TERM
    term_max := MINIMUM_VERIFIED_ALLOCATION_TERM
    expiration := 100 }

/-- A claim satisfying every checker bound relative to audit epoch 0 and
any counter above 3. -/
def okClaim : Claim :=
  { provider := 7
    client := 5
    data := 1
    size := MINIMUM_VERIFIED_ALLOCATION_SIZE
    term_min := MINIMUM_VERIFIED_ALLOCATION_TERM
    term_max := MINIMUM_VERIFIED_ALLOCATION_TERM
    term_start := 0
    sector := 1 }

/-- A registry state in which id 3 is simultaneously an allocation (of
client 5) and a claim (of provider 7), each entry individually within
bounds. -/
def dualIdState : State :=
  { verifiers := []
    allocations := [([5], [(3, okAllocation)])]
    claims := [([7], [(3, okClaim)])]
    next_allocation_id := 4 }

/-- A state whose allocations outer map holds a key (no bytes) that does
not decode to an actor id. -/
def badKeyState : State :=
  { verifiers := []
    allocations := [([], [])]
    claims := []
    next_allocation_id := 0 }

/-- A state whose claims outer map holds a key (no bytes) that does not
decode to an actor id, while the allocations map is fine. -/
def badClaimKeyState : State :=
  { verifiers := []
    allocations := [([5], [(3, okAllocation)])]
    claims := [([], [])]
    next_allocation_id := 4 }

/-- The freshly constructed registry state: empty maps, counter 0. -/
def emptyRegistryState : State :=
  { verifiers := []
    allocations := []
    claims := []
    next_allocation_id := 0 }

/-- A state with one malformed verifier entry and one allocation entry
violating several bounds, used to evaluate the checker's full report. -/
def violatingState : State :=
  { verifiers := [({ protocol := Protocol.Secp256k1, payload := 88 }, -2)]
    allocations := [([5], [(3, okAllocation), (9, { okAllocation with client := 6, size := 0 })])]
    claims := [([7], [(3, okClaim)])]
    next_allocation_id := 4 }

/-- A two-step creation sequence: one allocation, then one claim. -/
def sampleCreations : List CreationOp :=
  [CreationOp.mkAlloc okAllocation, CreationOp.mkClaim okClaim]

/-- A two-entry removal batch for the expired-allocations harness call. -/
def sampleRemovedAllocs : List (Nat × Allocation) :=
  [(0, okAllocation), (1, { okAllocation with data := 2 })]

theorem require_eq_nil_iff (acc : List String) (c : Prop) [Decidable c]
    (m : String) : require acc c m = [] ↔ (acc = [] ∧ c) := by
  unfold require
  split
  · case isTrue h => simp [h]
  · case isFalse h => simp [h]

theorem require_length (acc : List String) (c : Prop) [Decidable c]
    (m : String) :
    (require acc c m).length = acc.length + (if c then 0 else 1) := by
  unfold require
  split <;> simp

theorem check_allocation_state_eq_nil (id : Nat) (a : Allocation)
    (client : Nat) (next_alloc_id : Nat) (E : Int) :
    check_allocation_state id a client next_alloc_id E = [] ↔
      (id < next_alloc_id ∧ a.client = client ∧
        a.size ≥ MINIMUM_VERIFIED_ALLOCATION_SIZE ∧
        a.term_min ≥ MINIMUM_VERIFIED_ALLOCATION_TERM ∧
        a.term_max ≤ MAXIMUM_VERIFIED_ALLOCATION_TERM ∧
        a.term_min ≤ a.term_max ∧
        a.expiration ≤ E + MAXIMUM_VERIFIED_ALLOCATION_EXPIRATION) := by
  unfold check_allocation_state
  simp only [require_eq_nil_iff]
  tauto

theorem check_claim_state_eq_nil (id : Nat) (c : Claim) (provider : Nat)
    (next_alloc_id : Nat) (E : Int) :
    check_claim_state id c provider next_alloc_id E = [] ↔
      (id < next_alloc_id ∧ c.provider = provider ∧
        c.size ≥ MINIMUM_VERIFIED_ALLOCATION_SIZE ∧
        c.term_min ≥ MINIMUM_VERIFIED_ALLOCATION_TERM ∧
        c.term_min ≤ c.term_max ∧
        c.term_start ≤ E) := by
  unfold check_claim_state
  simp only [require_eq_nil_iff]
  tauto

theorem check_verifier_state_eq_nil (v : Address) (cap : Int) :
    check_verifier_state v cap = [] ↔
      (v.protocol = Protocol.ID ∧ ¬ cap < 0) := by
  unfold check_verifier_state
  simp only [require_eq_nil_iff]
  tauto

/-- C1: for an allocation entry under an outer key `k` that decodes to
owner id `client`, the checker records a violation message if and only
if one of the seven bounds fails: `size ≥
MINIMUM_VERIFIED_ALLOCATION_SIZE`, `term_min ≥
MINIMUM_VERIFIED_ALLOCATION_TERM`, `term_max ≤
MAXIMUM_VERIFIED_ALLOCATION_TERM`, `term_min ≤ term_max`, `expiration ≤
E + MAXIMUM_VERIFIED_ALLOCATION_EXPIRATION`, `id <
next_allocation_id`, and the embedded client equal to the decoded owner
id. -/
theorem check_allocation_state_violation_iff (k : List Nat) (id : Nat)
    (a : Allocation) (client : Nat) (next_alloc_id : Nat) (E : Int)
    (hk : decode_actor_id k = some client) :
    check_allocation_state id a client next_alloc_id E ≠ [] ↔
      ¬(a.size ≥ MINIMUM_VERIFIED_ALLOCATION_SIZE ∧
        a.term_min ≥ MINIMUM_VERIFIED_ALLOCATION_TERM ∧
        a.term_max ≤ MAXIMUM_VERIFIED_ALLOCATION_TERM ∧
        a.term_min ≤ a.term_max ∧
        a.expiration ≤ E + MAXIMUM_VERIFIED_ALLOCATION_EXPIRATION ∧
        id < next_alloc_id ∧
        a.client = client) := by
  rw [not_iff_not.symm]
  push_neg
  rw [check_allocation_state_eq_nil]
  tauto

/-- C1 witness: a concrete in-bounds allocation entry under key `[5]`
yields no violation. -/
theorem check_allocation_state_violation_iff_witness :
    check_allocation_state 3 okAllocation 5 4 0 ≠ [] ↔
      ¬(okAllocation.size ≥ MINIMUM_VERIFIED_ALLOCATION_SIZE ∧
        okAllocation.term_min ≥ MINIMUM_VERIFIED_ALLOCATION_TERM ∧
        okAllocation.term_max ≤ MAXIMUM_VERIFIED_ALLOCATION_TERM ∧
        okAllocation.term_min ≤ okAllocation.term_max ∧
        okAllocation.expiration ≤ 0 + MAXIMUM_VERIFIED_ALLOCATION_EXPIRATION ∧
        3 < 4 ∧
        okAllocation.client = 5) :=
  check_allocation_state_violation_iff [5] 3 okAllocation 5 4 0 (by decide)

/-- C2: for a claim entry under an outer key `k` that decodes to owner
id `provider`, the checker records a violation message if and only if
one of the six bounds fails: `size ≥ MINIMUM_VERIFIED_ALLOCATION_SIZE`,
`term_min ≥ MINIMUM_VERIFIED_ALLOCATION_TERM`, `term_min ≤ term_max`,
`term_start ≤ E`, `id < next_allocation_id`, and the embedded provider
equal to the decoded owner id. In particular `term_max` has no upper
bound: a claim with `term_max > MAXIMUM_VERIFIED_ALLOCATION_TERM`
produces no violation as long as `term_min ≤ term_max` (no such bound
appears on the right-hand side). -/
theorem check_claim_state_violation_iff (k : List Nat) (id : Nat)
    (c : Claim) (provider : Nat) (next_alloc_id : Nat) (E : Int)
    (hk : decode_actor_id k = some provider) :
    check_claim_state id c provider next_alloc_id E ≠ [] ↔
      ¬(c.size ≥ MINIMUM_VERIFIED_ALLOCATION_SIZE ∧
        c.term_min ≥ MINIMUM_VERIFIED_ALLOCATION_TERM ∧
        c.term_min ≤ c.term_max ∧
        c.term_start ≤ E ∧
        id < next_alloc_id ∧
        c.provider = provider) := by
  rw [not_iff_not.symm]
  push_neg
  rw [check_claim_state_eq_nil]
  tauto

/-- C2 witness: a concrete claim entry under key `[7]` whose `term_max`
exceeds `MAXIMUM_VERIFIED_ALLOCATION_TERM` still yields no violation. -/
theorem check_claim_state_violation_iff_witness :
    check_claim_state 3 { okClaim with term_max := 99999999 } 7 4 0 ≠ [] ↔
      ¬(({ okClaim with term_max := 99999999 } : Claim).size ≥
          MINIMUM_VERIFIED_ALLOCATION_SIZE ∧
        ({ okClaim with term_max := 99999999 } : Claim).term_min ≥
          MINIMUM_VERIFIED_ALLOCATION_TERM ∧
        ({ okClaim with term_max := 99999999 } : Claim).term_min ≤
          ({ okClaim with term_max := 99999999 } : Claim).term_max ∧
        ({ okClaim with term_max := 99999999 } : Claim).term_start ≤ 0 ∧
        3 < 4 ∧
        ({ okClaim with term_max := 99999999 } : Claim).provider = 7) :=
  check_claim_state_violation_iff [7] 3 { okClaim with term_max := 99999999 }
    7 4 0 (by decide)

/-- C4: a verifier entry is reported as a violation if and only if its
stored datacap is negative or its key address is not an ID-protocol
address; a non-negative cap under an ID key yields no verifier
violation. -/
theorem check_verifier_state_violation_iff (v : Address) (cap : Int) :
    check_verifier_state v cap ≠ [] ↔
      (cap < 0 ∨ v.protocol ≠ Protocol.ID) := by
  rw [ne_eq, check_verifier_state_eq_nil]
  tauto

theorem check_allocation_state_length (id : Nat) (a : Allocation)
    (client : Nat) (next_alloc_id : Nat) (E : Int) :
    (check_allocation_state id a client next_alloc_id E).length =
      alloc_violation_count id a client next_alloc_id E := by
  simp only [check_allocation_state, alloc_violation_count, require_length,
    List.length_nil, Nat.zero_add]

theorem check_claim_state_length (id : Nat) (c : Claim) (provider : Nat)
    (next_alloc_id : Nat) (E : Int) :
    (check_claim_state id c provider next_alloc_id E).length =
      claim_violation_count id c provider next_alloc_id E := by
  simp only [check_claim_state, claim_violation_count, require_length,
    List.length_nil, Nat.zero_add]

theorem check_verifier_state_length (v : Address) (cap : Int) :
    (check_verifier_state v cap).length = verifier_violation_count v cap := by
  simp only [check_verifier_state, verifier_violation_count, require_length,
    List.length_nil, Nat.zero_add]

theorem foldl_append_length {α β : Type} (f : α → List β) (l : List α) :
    ∀ init : List β,
      (l.foldl (fun acc p => acc ++ f p) init).length =
        init.length + (l.map (fun p => (f p).length)).sum := by
  induction l with
  | nil => intro init; simp
  | cons x rest ih =>
    intro init
    simp only [List.foldl_cons, List.map_cons, List.sum_cons, ih]
    simp
    omega

theorem check_allocations_outer_length (next_alloc_id : Nat) (E : Int) :
    ∀ (l : List (List Nat × List (Nat × Allocation))) (msgs : List String),
      check_allocations_outer next_alloc_id E l = some msgs →
      msgs.length = (l.map (fun q =>
        (q.2.map (fun p => alloc_violation_count p.1 p.2
          ((decode_actor_id q.1).getD 0) next_alloc_id E)).sum)).sum := by
  intro l
  induction l with
  | nil =>
    intro msgs h
    simp only [check_allocations_outer, Option.some.injEq] at h
    simp [← h]
  | cons q rest ih =>
    intro msgs h
    simp only [check_allocations_outer] at h
    cases hd : decode_actor_id q.1 with
    | none => rw [hd] at h; exact absurd h (by simp)
    | some client_id =>
      rw [hd] at h
      cases hrec : check_allocations_outer next_alloc_id E rest with
      | none => rw [hrec] at h; exact absurd h (by simp)
      | some ms =>
        rw [hrec] at h
        simp only [Option.some.injEq] at h
        subst h
        simp only [List.map_cons, List.sum_cons, List.length_append,
          foldl_append_length, List.length_nil, Nat.zero_add, hd,
          Option.getD_some, check_allocation_state_length, ih ms hrec]

theorem check_claims_outer_length (next_alloc_id : Nat) (E : Int) :
    ∀ (l : List (List Nat × List (Nat × Claim))) (msgs : List String),
      check_claims_outer next_alloc_id E l = some msgs →
      msgs.length = (l.map (fun q =>
        (q.2.map (fun p => claim_violation_count p.1 p.2
          ((decode_actor_id q.1).getD 0) next_alloc_id E)).sum)).sum := by
  intro l
  induction l with
  | nil =>
    intro msgs h
    simp only [check_claims_outer, Option.some.injEq] at h
    simp [← h]
  | cons q rest ih =>
    intro msgs h
    simp only [check_claims_outer] at h
    cases hd : decode_actor_id q.1 with
    | none => rw [hd] at h; exact absurd h (by simp)
    | some provider_id =>
      rw [hd] at h
      cases hrec : check_claims_outer next_alloc_id E rest with
      | none => rw [hrec] at h; exact absurd h (by simp)
      | some ms =>
        rw [hrec] at h
        simp only [Option.some.injEq] at h
        subst h
        simp only [List.map_cons, List.sum_cons, List.length_append,
          foldl_append_length, List.length_nil, Nat.zero_add, hd,
          Option.getD_some, check_claim_state_length, ih ms hrec]

/-- C3: whenever `check_state_invariants` returns (i.e. no key-decode
panic), the number of messages it accumulated equals the total number
of failed bounds over every verifier, every allocation entry and every
claim entry: a failed check never suppresses the evaluation or
reporting of any later bound of the same entry or of any later entry,
and the function never stops at the first violation. -/
theorem check_state_invariants_reports_all (st : State) (E : Int)
    (msgs : List String) (h : check_state_invariants st E = some msgs) :
    msgs.length = verifier_violation_total st +
      alloc_violation_total st E + claim_violation_total st E := by
  unfold check_state_invariants at h
  cases ha : check_allocations_outer st.next_allocation_id E st.allocations with
  | none => rw [ha] at h; exact absurd h (by simp)
  | some amsgs =>
    rw [ha] at h
    cases hc : check_claims_outer st.next_allocation_id E st.claims with
    | none => rw [hc] at h; exact absurd h (by simp)
    | some cmsgs =>
      rw [hc] at h
      simp only [Option.some.injEq] at h
      subst h
      simp only [List.length_append, foldl_append_length, List.length_nil,
        Nat.zero_add, check_verifier_state_length,
        check_allocations_outer_length st.next_allocation_id E st.allocations
          amsgs ha,
        check_claims_outer_length st.next_allocation_id E st.claims cmsgs hc,
        verifier_violation_total, alloc_violation_total, claim_violation_total]

/-- C3 witness: on a concrete state with a malformed verifier and a
doubly-violating allocation entry the checker's report has exactly as
many messages as there are failed bounds. -/
theorem check_state_invariants_reports_all_witness :
    ((check_state_invariants violatingState 0).getD []).length =
      verifier_violation_total violatingState +
        alloc_violation_total violatingState 0 +
        claim_violation_total violatingState 0 :=
  check_state_invariants_reports_all violatingState 0
    ((check_state_invariants violatingState 0).getD []) (by rfl)

theorem create_alloc_spec (st : State) (a : Allocation) (id : Nat)
    (st1 : State) (h : create_alloc st a = some (id, st1)) :
    id = st.next_allocation_id ∧
      st1.next_allocation_id = st.next_allocation_id + 1 := by
  rw [create_alloc] at h
  cases hput : mmPutIfAbsent st.allocations a.client st.next_allocation_id a with
  | mk b allocs =>
    cases b with
    | false => simp [hput] at h
    | true =>
      simp only [hput] at h
      split at h
      · simp only [Option.some.injEq, Prod.mk.injEq] at h
        obtain ⟨h1, h2⟩ := h
        subst h1
        subst h2
        exact ⟨rfl, rfl⟩
      · exact absurd h (by simp)

theorem create_claim_spec (st : State) (c : Claim) (id : Nat)
    (st1 : State) (h : create_claim st c = some (id, st1)) :
    id = st.next_allocation_id ∧
      st1.next_allocation_id = st.next_allocation_id + 1 := by
  rw [create_claim] at h
  cases hput : mmPutIfAbsent st.claims c.provider st.next_allocation_id c with
  | mk b claims =>
    cases b with
    | false => simp [hput] at h
    | true =>
      simp only [hput] at h
      split at h
      · simp only [Option.some.injEq, Prod.mk.injEq] at h
        obtain ⟨h1, h2⟩ := h
        subst h1
        subst h2
        exact ⟨rfl, rfl⟩
      · exact absurd h (by simp)

theorem creation_step_spec (st : State) (op : CreationOp) (id : Nat)
    (st1 : State) (h : creation_step st op = some (id, st1)) :
    id = st.next_allocation_id ∧
      st1.next_allocation_id = st.next_allocation_id + 1 := by
  cases op with
  | mkAlloc a => exact create_alloc_spec st a id st1 h
  | mkClaim c => exact create_claim_spec st c id st1 h

theorem run_creations_ids (ops : List CreationOp) :
    ∀ (st : State) (ids : List Nat) (st2 : State),
      run_creations st ops = some (ids, st2) →
      ids = List.range' st.next_allocation_id ops.length := by
  induction ops with
  | nil =>
    intro st ids st2 h
    simp only [run_creations, Option.some.injEq, Prod.mk.injEq] at h
    simp [← h.1]
  | cons op rest ih =>
    intro st ids st2 h
    rw [run_creations] at h
    cases hs : creation_step st op with
    | none => simp [hs] at h
    | some p =>
      obtain ⟨id, st1⟩ := p
      simp only [hs] at h
      cases hr : run_creations st1 rest with
      | none => simp [hr] at h
      | some q =>
        obtain ⟨ids1, stEnd⟩ := q
        simp only [hr, Option.some.injEq, Prod.mk.injEq] at h
        obtain ⟨hid, _⟩ := h
        obtain ⟨h1, h2⟩ := creation_step_spec st op id st1 hs
        rw [← hid, ih st1 ids1 stEnd hr, h1, h2, List.length_cons,
          List.range'_succ]

/-- C5: `create_alloc` and `create_claim` both assign the new entry's id
equal to the current `next_allocation_id` and increment that single
shared counter by exactly one, so for any sequence of such creations
the assigned ids are the consecutive range starting at the initial
counter — in particular no id is ever assigned twice. -/
theorem creation_ids_shared_counter_unique :
    (∀ (st : State) (a : Allocation) (id : Nat) (st1 : State),
      create_alloc st a = some (id, st1) →
      id = st.next_allocation_id ∧
        st1.next_allocation_id = st.next_allocation_id + 1) ∧
    (∀ (st : State) (c : Claim) (id : Nat) (st1 : State),
      create_claim st c = some (id, st1) →
      id = st.next_allocation_id ∧
        st1.next_allocation_id = st.next_allocation_id + 1) ∧
    (∀ (st : State) (ops : List CreationOp) (ids : List Nat) (st2 : State),
      run_creations st ops = some (ids, st2) →
      ids = List.range' st.next_allocation_id ops.length ∧ ids.Nodup) := by
  refine ⟨create_alloc_spec, create_claim_spec, ?_⟩
  intro st ops ids st2 h
  have hids := run_creations_ids ops st ids st2 h
  exact ⟨hids, hids ▸ List.nodup_range' st.next_allocation_id ops.length⟩

/-- C5 witness: running one allocation creation then one claim creation
from the fresh registry state assigns ids 0 and 1, which are distinct. -/
theorem creation_ids_shared_counter_unique_witness :
    ((run_creations emptyRegistryState sampleCreations).getD
        ([], emptyRegistryState)).1 =
      List.range' emptyRegistryState.next_allocation_id
        sampleCreations.length ∧
    ((run_creations emptyRegistryState sampleCreations).getD
        ([], emptyRegistryState)).1.Nodup :=
  creation_ids_shared_counter_unique.2.2 emptyRegistryState sampleCreations
    ((run_creations emptyRegistryState sampleCreations).getD
      ([], emptyRegistryState)).1
    ((run_creations emptyRegistryState sampleCreations).getD
      ([], emptyRegistryState)).2
    (by rfl)

theorem lookupKey_insertKey_self {κ α : Type} [DecidableEq κ]
    (l : List (κ × α)) (key : κ) (v : α) :
    lookupKey (insertKey l key v) key = some v := by
  induction l with
  | nil => simp [insertKey, lookupKey]
  | cons p rest ih =>
    obtain ⟨k, w⟩ := p
    by_cases hk : k = key
    · simp [insertKey, hk, lookupKey]
    · simp [insertKey, hk, lookupKey, ih]

theorem lookupKey_removeKey_self {κ α : Type} [DecidableEq κ]
    (l : List (κ × α)) (key : κ) :
    lookupKey (removeKey l key) key = none := by
  induction l with
  | nil => rfl
  | cons p rest ih =>
    obtain ⟨k, w⟩ := p
    by_cases hk : k = key
    · simpa [removeKey, List.filter_cons, hk] using ih
    · simpa [removeKey, List.filter_cons, hk, lookupKey] using ih

theorem mmGet_mmRemove_self {α : Type}
    (m : List (List Nat × List (Nat × α))) (owner : Nat) (id : Nat) :
    mmGet (mmRemove m owner id) owner id = none := by
  unfold mmRemove
  cases hm : lookupKey m (encode_actor_id owner) with
  | none =>
    unfold mmGet
    simp [hm]
  | some inner =>
    unfold mmGet
    rw [lookupKey_insertKey_self]
    exact lookupKey_removeKey_self inner id

theorem mmGet_mmPut_self {α : Type}
    (m : List (List Nat × List (Nat × α))) (owner : Nat) (id : Nat) (v : α) :
    mmGet (mmPut m owner id v) owner id = some v := by
  unfold mmPut
  cases hm : lookupKey m (encode_actor_id owner) with
  | none =>
    unfold mmGet
    rw [lookupKey_insertKey_self]
    simp [lookupKey]
  | some inner =>
    unfold mmGet
    rw [lookupKey_insertKey_self]
    exact lookupKey_insertKey_self inner id v

/-- C6: `claim_from_alloc` copies client, provider, data, size,
`term_min` and `term_max` from the allocation and stamps `term_start`
with the proof epoch and `sector` with the proven sector; and after a
successful claim of allocation id `n` the allocation at `(client, n)`
is gone while the claim at `(provider, n)` is exactly that value. -/
theorem claim_from_alloc_moves_alloc_to_claim :
    (∀ (a : Allocation) (t : Int) (s : Nat),
      (claim_from_alloc a t s).client = a.client ∧
      (claim_from_alloc a t s).provider = a.provider ∧
      (claim_from_alloc a t s).data = a.data ∧
      (claim_from_alloc a t s).size = a.size ∧
      (claim_from_alloc a t s).term_min = a.term_min ∧
      (claim_from_alloc a t s).term_max = a.term_max ∧
      (claim_from_alloc a t s).term_start = t ∧
      (claim_from_alloc a t s).sector = s) ∧
    (∀ (st : State) (client n : Nat) (sector_expiry epoch : Int)
        (sector : Nat) (a : Allocation) (st1 : State),
      mmGet st.allocations client n = some a →
      claim_allocation st client n sector_expiry epoch sector = some st1 →
      mmGet st1.allocations client n = none ∧
      mmGet st1.claims a.provider n = some (claim_from_alloc a epoch sector)) := by
  constructor
  · intro a t s
    exact ⟨rfl, rfl, rfl, rfl, rfl, rfl, rfl, rfl⟩
  · intro st client n sector_expiry epoch sector a st1 hget h
    rw [claim_allocation] at h
    simp only [hget] at h
    split at h
    · simp only [Option.some.injEq] at h
      subst h
      exact ⟨mmGet_mmRemove_self st.allocations client n,
        mmGet_mmPut_self st.claims a.provider n
          (claim_from_alloc a epoch sector)⟩
    · exact absurd h (by simp)

/-- C6 witness: claiming the concrete allocation id 3 of client 5 at
epoch 0 into sector 1 removes the allocation and installs the copied
claim under provider 9. -/
theorem claim_from_alloc_moves_alloc_to_claim_witness :
    mmGet ((claim_allocation dualIdState 5 3 MINIMUM_VERIFIED_ALLOCATION_TERM
        0 1).getD dualIdState).allocations 5 3 = none ∧
    mmGet ((claim_allocation dualIdState 5 3 MINIMUM_VERIFIED_ALLOCATION_TERM
        0 1).getD dualIdState).claims okAllocation.provider 3 =
      some (claim_from_alloc okAllocation 0 1) :=
  claim_from_alloc_moves_alloc_to_claim.2 dualIdState 5 3
    MINIMUM_VERIFIED_ALLOCATION_TERM 0 1 okAllocation
    ((claim_allocation dualIdState 5 3 MINIMUM_VERIFIED_ALLOCATION_TERM
      0 1).getD dualIdState)
    (by rfl) (by rfl)

theorem filter_isTransferSend_map_alloc_events (typ : String)
    (l : List (Nat × Allocation)) :
    (l.map (fun p => expect_allocation_emitted typ p.1 p.2)).filter
      isTransferSend = [] := by
  induction l with
  | nil => rfl
  | cons p rest ih =>
    rw [List.map_cons, List.filter_cons]
    have hhead :
        isTransferSend (expect_allocation_emitted typ p.1 p.2) = false := rfl
    rw [hhead]
    simpa using ih

theorem filter_isEventOfType_map_alloc_events (typ : String)
    (l : List (Nat × Allocation)) :
    (l.map (fun p => expect_allocation_emitted typ p.1 p.2)).filter
        (isEventOfType typ) =
      l.map (fun p => expect_allocation_emitted typ p.1 p.2) := by
  induction l with
  | nil => rfl
  | cons p rest ih =>
    rw [List.map_cons, List.filter_cons]
    have hhead :
        isEventOfType typ (expect_allocation_emitted typ p.1 p.2) = true := by
      simp [expect_allocation_emitted, isEventOfType]
    rw [hhead]
    simp only [if_true]
    rw [ih]

theorem filter_isTransferSend_map_claim_events (typ : String)
    (l : List (Nat × Claim)) :
    (l.map (fun p => expect_claim_emitted typ p.1 p.2)).filter
      isTransferSend = [] := by
  induction l with
  | nil => rfl
  | cons p rest ih =>
    rw [List.map_cons, List.filter_cons]
    have hhead :
        isTransferSend (expect_claim_emitted typ p.1 p.2) = false := rfl
    rw [hhead]
    simpa using ih

theorem filter_isEventOfType_map_claim_events (typ : String)
    (l : List (Nat × Claim)) :
    (l.map (fun p => expect_claim_emitted typ p.1 p.2)).filter
        (isEventOfType typ) =
      l.map (fun p => expect_claim_emitted typ p.1 p.2) := by
  induction l with
  | nil => rfl
  | cons p rest ih =>
    rw [List.map_cons, List.filter_cons]
    have hhead :
        isEventOfType typ (expect_claim_emitted typ p.1 p.2) = true := by
      simp [expect_claim_emitted, isEventOfType]
    rw [hhead]
    simp only [if_true]
    rw [ih]

/-- C7: a `RemoveExpiredAllocations` harness call issues exactly one
token `Transfer` to the client, for the sum of the removed allocations'
sizes scaled by `TOKEN_PRECISION`, and one "allocation-removed" event
per removed entry (in order, with the entry's fields). -/
theorem remove_expired_allocations_single_transfer (client : Nat)
    (l : List (Nat × Allocation)) (msgs : List HarnessMsg)
    (h : remove_expired_allocations client l = some msgs) :
    msgs.filter isTransferSend =
      [HarnessMsg.transferSend client
        (((l.map (fun p => p.2.size)).sum : Int) * TOKEN_PRECISION)] ∧
    msgs.filter (isEventOfType "allocation-removed") =
      l.map (fun p => expect_allocation_emitted "allocation-removed" p.1 p.2) := by
  rw [remove_expired_allocations] at h
  split at h
  · simp only [Option.some.injEq] at h
    subst h
    constructor
    · rw [List.filter_append, filter_isTransferSend_map_alloc_events]
      simp [List.filter_cons, isTransferSend]
    · rw [List.filter_append, filter_isEventOfType_map_alloc_events]
      simp [List.filter_cons, isEventOfType]
  · exact absurd h (by simp)

/-- C7 witness: removing two concrete expired allocations of client 5
yields two removal events and a single transfer of twice the minimum
size, scaled by the precision factor. -/
theorem remove_expired_allocations_single_transfer_witness :
    ((remove_expired_allocations 5 sampleRemovedAllocs).getD []).filter
        isTransferSend =
      [HarnessMsg.transferSend 5
        (((sampleRemovedAllocs.map (fun p => p.2.size)).sum : Int) *
          TOKEN_PRECISION)] ∧
    ((remove_expired_allocations 5 sampleRemovedAllocs).getD []).filter
        (isEventOfType "allocation-removed") =
      sampleRemovedAllocs.map
        (fun p => expect_allocation_emitted "allocation-removed" p.1 p.2) :=
  remove_expired_allocations_single_transfer 5 sampleRemovedAllocs
    ((remove_expired_allocations 5 sampleRemovedAllocs).getD []) (by rfl)

/-- C8: a `RemoveExpiredClaims` harness call registers one
"claim-removed" event per removed entry and no outbound token-ledger
call at all, regardless of how many claims are removed; and the
spec-modelled removal of one expired claim deletes it from the claims
map while emitting only that one event. -/
theorem remove_expired_claims_no_token_movement :
    (∀ (provider : Nat) (l : List (Nat × Claim)),
      (remove_expired_claims provider l).filter isTransferSend = [] ∧
      ((remove_expired_claims provider l).filter
        (isEventOfType "claim-removed")).length = l.length) ∧
    (∀ (st : State) (provider id : Nat) (epoch : Int) (c : Claim),
      mmGet st.claims provider id = some c →
      c.term_start + c.term_max < epoch →
      mmGet (remove_expired_claim_one st provider id epoch).1.claims
        provider id = none ∧
      (remove_expired_claim_one st provider id epoch).2 =
        [expect_claim_emitted "claim-removed" id c]) := by
  constructor
  · intro provider l
    constructor
    · rw [remove_expired_claims]
      exact filter_isTransferSend_map_claim_events "claim-removed" l
    · rw [remove_expired_claims,
        filter_isEventOfType_map_claim_events "claim-removed" l]
      simp
  · intro st provider id epoch c hget hexp
    rw [remove_expired_claim_one]
    simp only [hget]
    rw [if_pos hexp]
    exact ⟨mmGet_mmRemove_self st.claims provider id, rfl⟩

/-- C8 witness: removing the concrete expired claim id 3 of provider 7
at an epoch past its term deletes it and emits exactly its
"claim-removed" event. -/
theorem remove_expired_claims_no_token_movement_witness :
    mmGet (remove_expired_claim_one dualIdState 7 3 518401).1.claims 7 3 =
      none ∧
    (remove_expired_claim_one dualIdState 7 3 518401).2 =
      [expect_claim_emitted "claim-removed" 3 okClaim] :=
  remove_expired_claims_no_token_movement.2 dualIdState 7 3 518401 okClaim
    (by rfl) (by decide)

theorem check_allocations_outer_isSome (next_alloc_id : Nat) (E : Int)
    (l : List (List Nat × List (Nat × Allocation)))
    (hk : ∀ k ∈ l.map Prod.fst, (decode_actor_id k).isSome) :
    (check_allocations_outer next_alloc_id E l).isSome := by
  induction l with
  | nil => rfl
  | cons q rest ih =>
    rw [check_allocations_outer]
    have h1 : (decode_actor_id q.1).isSome := hk q.1 (by simp)
    cases hd : decode_actor_id q.1 with
    | none => rw [hd] at h1; simp at h1
    | some client_id =>
      have h2 := ih (fun k hkm => hk k (by simp [hkm]))
      cases hr : check_allocations_outer next_alloc_id E rest with
      | none => rw [hr] at h2; simp at h2
      | some ms => simp [hd, hr]

theorem check_claims_outer_isSome (next_alloc_id : Nat) (E : Int)
    (l : List (List Nat × List (Nat × Claim)))
    (hk : ∀ k ∈ l.map Prod.fst, (decode_actor_id k).isSome) :
    (check_claims_outer next_alloc_id E l).isSome := by
  induction l with
  | nil => rfl
  | cons q rest ih =>
    rw [check_claims_outer]
    have h1 : (decode_actor_id q.1).isSome := hk q.1 (by simp)
    cases hd : decode_actor_id q.1 with
    | none => rw [hd] at h1; simp at h1
    | some provider_id =>
      have h2 := ih (fun k hkm => hk k (by simp [hkm]))
      cases hr : check_claims_outer next_alloc_id E rest with
      | none => rw [hr] at h2; simp at h2
      | some ms => simp [hd, hr]

theorem check_allocations_outer_eq_none (next_alloc_id : Nat) (E : Int)
    (l : List (List Nat × List (Nat × Allocation)))
    (hk : ∃ k ∈ l.map Prod.fst, decode_actor_id k = none) :
    check_allocations_outer next_alloc_id E l = none := by
  induction l with
  | nil => simp at hk
  | cons q rest ih =>
    obtain ⟨k, hkm, hkd⟩ := hk
    simp only [List.map_cons, List.mem_cons] at hkm
    rw [check_allocations_outer]
    cases hkm with
    | inl h =>
      rw [← h, hkd]
    | inr h =>
      cases hd : decode_actor_id q.1 with
      | none => rfl
      | some client_id => simp only [ih ⟨k, h, hkd⟩]

theorem check_claims_outer_eq_none (next_alloc_id : Nat) (E : Int)
    (l : List (List Nat × List (Nat × Claim)))
    (hk : ∃ k ∈ l.map Prod.fst, decode_actor_id k = none) :
    check_claims_outer next_alloc_id E l = none := by
  induction l with
  | nil => simp at hk
  | cons q rest ih =>
    obtain ⟨k, hkm, hkd⟩ := hk
    simp only [List.map_cons, List.mem_cons] at hkm
    rw [check_claims_outer]
    cases hkm with
    | inl h =>
      rw [← h, hkd]
    | inr h =>
      cases hd : decode_actor_id q.1 with
      | none => rfl
      | some provider_id => simp only [ih ⟨k, h, hkd⟩]

/-- C9: for every state whose allocations outer map or claims outer map
contains a key that does not decode to an actor id,
`check_state_invariants` panics (the `unwrap`, modelled as `none`)
instead of recording a diagnostic message; and under the precondition
that every outer key of both two-level maps decodes, the panic branches
are unreachable and the checker returns a report. -/
theorem check_state_invariants_decode_panic_totality :
    (∀ (st : State) (E : Int),
      ((∃ k ∈ st.allocations.map Prod.fst, decode_actor_id k = none) ∨
        (∃ k ∈ st.claims.map Prod.fst, decode_actor_id k = none)) →
      check_state_invariants st E = none) ∧
    (∀ (st : State) (E : Int),
      (∀ k ∈ st.allocations.map Prod.fst, (decode_actor_id k).isSome) →
      (∀ k ∈ st.claims.map Prod.fst, (decode_actor_id k).isSome) →
      (check_state_invariants st E).isSome) := by
  constructor
  · intro st E hbad
    rw [check_state_invariants]
    cases hbad with
    | inl ha =>
      rw [check_allocations_outer_eq_none st.next_allocation_id E
        st.allocations ha]
    | inr hc =>
      cases hA : check_allocations_outer st.next_allocation_id E
          st.allocations with
      | none => rfl
      | some amsgs =>
        simp only [check_claims_outer_eq_none st.next_allocation_id E
          st.claims hc]
  · intro st E ha hc
    rw [check_state_invariants]
    have h1 := check_allocations_outer_isSome st.next_allocation_id E
      st.allocations ha
    cases hA : check_allocations_outer st.next_allocation_id E
        st.allocations with
    | none => rw [hA] at h1; simp at h1
    | some amsgs =>
      have h2 := check_claims_outer_isSome st.next_allocation_id E
        st.claims hc
      cases hC : check_claims_outer st.next_allocation_id E st.claims with
      | none => rw [hC] at h2; simp at h2
      | some cmsgs => simp [hA, hC]

/-- C9 witness: the checker panics on a concrete state with an
undecodable allocations-map key and on one with an undecodable
claims-map key, and returns a report on a concrete state whose outer
keys all decode. -/
theorem check_state_invariants_decode_panic_totality_witness :
    check_state_invariants badKeyState 0 = none ∧
    check_state_invariants badClaimKeyState 0 = none ∧
    (check_state_invariants dualIdState 0).isSome :=
  ⟨check_state_invariants_decode_panic_totality.1 badKeyState 0
      (Or.inl ⟨[], by simp [badKeyState], rfl⟩),
    check_state_invariants_decode_panic_totality.1 badClaimKeyState 0
      (Or.inr ⟨[], by simp [badClaimKeyState], rfl⟩),
    check_state_invariants_decode_panic_totality.2 dualIdState 0
      (by intro k hkm; simp [dualIdState] at hkm; subst hkm; rfl)
      (by intro k hkm; simp [dualIdState] at hkm; subst hkm; rfl)⟩

/-- C10: a registry state in which id 3 is simultaneously present in
the allocation map (client 5) and in the claim map (provider 7), each
entry individually within its bounds, passes `check_state_invariants`
with zero violation messages: the auditor never compares the two maps,
so cross-map id disjointness is not among the properties it checks. -/
theorem check_state_invariants_ignores_cross_map_ids :
    mmGet dualIdState.allocations 5 3 = some okAllocation ∧
    mmGet dualIdState.claims 7 3 = some okClaim ∧
    check_allocation_state 3 okAllocation 5 4 0 = [] ∧
    check_claim_state 3 okClaim 7 4 0 = [] ∧
    check_state_invariants dualIdState 0 = some [] := by
  refine ⟨rfl, rfl, ?_, ?_, ?_⟩ <;> decide

end VerifReg
